import Mathlib

/- Shallow embedding of src/trufflehog.py: the GitHubScanner orchestration
   core — the credential pool (_get_available_pat), the scan invoker
   (_run_trufflehog), per-line output parsing and the verified filter
   (scan_domain), alert batching (_send_telegram_alert), the per-domain
   retry loop (scan_domain), and the per-cycle pass over the domain list
   (run), together with the startup loaders (_load_pats,
   _load_completed_domains) and the fatal-error path of __main__. -/

/- Python strings are modelled as lists of characters: len is List.length,
   + is ++, and indexing is per code point, exactly as in CPython. -/
abbrev PyStr := List Char

/- JSON values as produced by json.loads. Numbers are abstracted to Int:
   no claim depends on float behaviour. Objects keep fields in order;
   duplicate keys resolve to the last occurrence, as in json.loads. -/
inductive J where
  | null
  | bool (b : Bool)
  | num (n : Int)
  | str (s : PyStr)
  | arr (elems : List J)
  | obj (fields : List (PyStr × J))

instance : Inhabited J := ⟨J.null⟩

/- Settings block of the source (only the constants the claims need). -/
def MAX_RETRIES_PER_DOMAIN : Nat := 3
def PAT_COOLDOWN : Nat := 300

/-- Python dict lookup on a JSON object's field list: the last binding of a
key wins, as in a dict built by json.loads. -/
def jlookup (fields : List (PyStr × J)) (k : PyStr) : Option J :=
  fields.foldl (fun acc p => if p.1 = k then some p.2 else acc) none

/-- x.get(k) on a value statically known to be a dict at the call site
(both call sites guard with isinstance(x, dict) first). -/
def jget (x : J) (k : PyStr) : Option J :=
  match x with
  | .obj fields => jlookup fields k
  | _ => none

/-- Python truthiness of a JSON value ("if not x" tests). -/
def pyTruthy : J → Bool
  | .null => false
  | .bool b => b
  | .num n => n != 0
  | .str s => !s.isEmpty
  | .arr elems => !elems.isEmpty
  | .obj fields => !fields.isEmpty

/-- Truthiness of dict.get's result (None when the key is absent). -/
def pyTruthyOpt : Option J → Bool
  | none => false
  | some v => pyTruthy v

/-- x.get(k, d): returns the stored value (even None) when the key is
present, the default when absent, and raises AttributeError (modelled as
Except.error) when x is not a dict. -/
def dictGetD (x : J) (k : PyStr) (d : J) : Except Unit J :=
  match x with
  | .obj fields => .ok ((jlookup fields k).getD d)
  | _ => .error ()

/-- The chained access entry.get("SourceMetadata", dict()).get("Data",
dict()).get("Github", dict()) used by both the verified filter and the
alert builder; any non-dict intermediate raises. -/
def ghChain (entry : J) : Except Unit J := do
  let sm ← dictGetD entry ("SourceMetadata".data) (.obj [])
  let dt ← dictGetD sm ("Data".data) (.obj [])
  dictGetD dt ("Github".data) (.obj [])

/-- Python str() rendering of a JSON value, as interpolated into the alert
f-string. Rendering of container values is abstracted to a fixed
placeholder: no claim depends on how a non-scalar field value prints. -/
def pyStrOf : J → PyStr
  | .null => "None".data
  | .bool true => "True".data
  | .bool false => "False".data
  | .num n => (toString n).data
  | .str s => s
  | .arr _ => "[...]".data
  | .obj _ => "[...]".data

/-- needle.isPrefix-style test on character lists, used for the substring
test below. -/
def seqStartsWith : PyStr → PyStr → Bool
  | [], _ => true
  | _ :: _, [] => false
  | a :: as, b :: bs => a == b && seqStartsWith as bs

/-- The Python membership test sub in s on strings. -/
def containsSeq (needle : PyStr) : PyStr → Bool
  | [] => needle.isEmpty
  | c :: rest => seqStartsWith needle (c :: rest) || containsSeq needle rest

/-- Python str.strip(): drop leading and trailing whitespace. -/
def stripLine (l : PyStr) : PyStr :=
  ((l.dropWhile Char.isWhitespace).reverse.dropWhile Char.isWhitespace).reverse

/-- The list comprehension shared by the three file loaders:
[line.strip() for line in f if line.strip()]. -/
def loadLinesNonEmpty (lines : List PyStr) : List PyStr :=
  lines.filterMap (fun l =>
    let s := stripLine l
    if s.isEmpty then none else some s)

/- The scanner's mutable state: the PAT list, the cool-down map
(rate_limited_pats, an association list observed only through lookup), the
rotation cursor, the in-memory completed-domain set (observed only through
membership), and the current wall clock (time.time(), advanced by the
sleeps). -/
structure ScannerState where
  pats : List PyStr
  rateLimitedPats : List (PyStr × Nat)
  currentPatIndex : Nat
  completedDomains : List PyStr
  now : Nat
deriving DecidableEq

/-- First-match lookup in the cool-down association list (keys are kept
unique by aupdate/aremove, so this is dict access). -/
def alookup (rl : List (PyStr × Nat)) (k : PyStr) : Option Nat :=
  match rl with
  | [] => none
  | p :: rest => if p.1 = k then some p.2 else alookup rest k

/-- dict.pop(k, None): remove the binding for k if present. -/
def aremove (rl : List (PyStr × Nat)) (k : PyStr) : List (PyStr × Nat) :=
  match rl with
  | [] => []
  | p :: rest => if p.1 = k then aremove rest k else p :: aremove rest k

/-- dict assignment rl[k] = v, lookup-equivalent representation. -/
def aupdate (rl : List (PyStr × Nat)) (k : PyStr) (v : Nat) : List (PyStr × Nat) :=
  (k, v) :: aremove rl k

/-- The scanning loop of _get_available_pat: for _ in range(len(pats)),
probe pats[current_pat_index], advance the cursor modulo len(pats), skip a
PAT whose recorded cool-down expiry is still in the future, otherwise pop
its (possibly absent) cool-down entry and return it. -/
def getAvailablePatAux (now : Nat) (pats : List PyStr) :
    List (PyStr × Nat) → Nat → Nat → Option PyStr × List (PyStr × Nat) × Nat
  | rl, idx, 0 => (none, rl, idx)
  | rl, idx, fuel + 1 =>
    let pat := pats.getD idx []
    let idx2 := (idx + 1) % pats.length
    match alookup rl pat with
    | some expiry =>
      if now < expiry then getAvailablePatAux now pats rl idx2 fuel
      else (some pat, aremove rl pat, idx2)
    | none => (some pat, aremove rl pat, idx2)

/-- _get_available_pat on the scanner state. -/
def getAvailablePat (st : ScannerState) : Option PyStr × ScannerState :=
  let r := getAvailablePatAux st.now st.pats st.rateLimitedPats st.currentPatIndex st.pats.length
  (r.1, { st with rateLimitedPats := r.2.1, currentPatIndex := r.2.2 })

/- Result of the external trufflehog subprocess: clean exit with stdout
(pre-split into lines, each line either json.loads-parseable to a value or
malformed), non-zero exit with stderr text, or a timeout. -/
inductive SubprocResult where
  | ok (lines : List (Option J))
  | err (stderr : PyStr)
  | timedOut

/- The second component of _run_trufflehog's return value: stdout lines on
the success path, a plain diagnostic string otherwise. -/
inductive RunOutput where
  | out (lines : List (Option J))
  | msg (text : PyStr)

/-- _run_trufflehog(domain, pat): classify the subprocess result. A
non-zero exit whose stderr contains "403" records pat's cool-down expiry
(now + PAT_COOLDOWN) in rate_limited_pats and reports "rate_limit"; any
other non-zero exit reports its stderr; a timeout reports "timeout". -/
def runTrufflehog (st : ScannerState) (pat : PyStr) (r : SubprocResult) :
    (Bool × RunOutput) × ScannerState :=
  match r with
  | .ok lines => ((true, .out lines), st)
  | .err stderr =>
    if containsSeq ("403".data) stderr then
      ((false, .msg ("rate_limit".data)),
        { st with rateLimitedPats := aupdate st.rateLimitedPats pat (st.now + PAT_COOLDOWN) })
    else ((false, .msg stderr), st)
  | .timedOut => ((false, .msg ("timeout".data)), st)

/-- The per-line parse loop of scan_domain's success branch: json.loads
each line, append dict values to findings, count everything else (or a
JSONDecodeError, modelled as none) as an invalid entry. -/
def parseLoop : List (Option J) → List J → Nat → Nat → List J × Nat × Nat
  | [], findings, valid, invalid => (findings, valid, invalid)
  | line :: rest, findings, valid, invalid =>
    match line with
    | some d =>
      match d with
      | .obj fields => parseLoop rest (findings ++ [.obj fields]) (valid + 1) invalid
      | _ => parseLoop rest findings valid (invalid + 1)
    | none => parseLoop rest findings valid (invalid + 1)

/-- The verified filter of scan_domain: keep dict entries whose "Verified"
field is truthy and whose SourceMetadata/Data/Github chain yields a dict;
a non-dict intermediate in the chain raises out of scan_domain. -/
def filterVerifiedLoop : List J → List J → Except Unit (List J)
  | [], acc => .ok acc
  | entry :: rest, acc =>
    match entry with
    | .obj fields =>
      if pyTruthyOpt (jget (.obj fields) ("Verified".data)) then
        match ghChain (.obj fields) with
        | .error u => .error u
        | .ok ghData =>
          match ghData with
          | .obj _ => filterVerifiedLoop rest (acc ++ [.obj fields])
          | _ => filterVerifiedLoop rest acc
      else filterVerifiedLoop rest acc
    | _ => filterVerifiedLoop rest acc

/-- Header of the first alert message for a domain. -/
def initialHeader (domain : PyStr) : PyStr :=
  "🚨 *Verified secrets found in ".data ++ domain ++ "*:\n".data

/-- Header of every follow-up alert message for a domain. -/
def continuedHeader (domain : PyStr) : PyStr :=
  "*Continued findings for ".data ++ domain ++ ":*\n".data

/-- The per-secret block appended to the alert message. -/
def secretBlock (detectorName filePath commitUrl : PyStr) : PyStr :=
  "\n🔍 *".data ++ detectorName ++ "*\n📄 `".data ++ filePath ++
    "`\n🔗 [View Commit](".data ++ commitUrl ++ ")\n".data

/- Loop state of _send_telegram_alert: messages already sent, the message
under construction, and the count of blocks since the last flush. -/
structure AlertState where
  msgs : List PyStr
  message : PyStr
  count : Nat

/-- One iteration of _send_telegram_alert's loop: skip non-dict entries;
inside the try block, read the detector name, run the Github chain and the
file/link accesses (an AttributeError is caught and the secret skipped);
skip a falsy commit URL; otherwise append the block and, when the message
now exceeds 3000 characters, flush it and restart from the continued
header with the block counter reset. -/
def alertStep (domain : PyStr) (st : AlertState) (secret : J) : AlertState :=
  match secret with
  | .obj fields =>
    let detectorName := (jget (.obj fields) ("DetectorName".data)).getD (.str ("Unknown Secret".data))
    match ghChain (.obj fields) with
    | .error _ => st
    | .ok ghData =>
      match dictGetD ghData ("file".data) (.str ("Unknown file".data)) with
      | .error _ => st
      | .ok filePath =>
        match dictGetD ghData ("link".data) (.str []) with
        | .error _ => st
        | .ok commitUrl =>
          if pyTruthy commitUrl then
            let message := st.message ++
              secretBlock (pyStrOf detectorName) (pyStrOf filePath) (pyStrOf commitUrl)
            if 3000 < message.length then
              { msgs := st.msgs ++ [message], message := continuedHeader domain, count := 0 }
            else
              { msgs := st.msgs, message := message, count := st.count + 1 }
          else st
  | _ => st

/-- _send_telegram_alert(domain, verified_secrets), returning the list of
messages posted to Telegram in order. Returns immediately on an empty
input; otherwise folds the loop from the initial header and flushes the
residual message when at least one block is pending. -/
def sendTelegramAlert (domain : PyStr) (verifiedSecrets : List J) : List PyStr :=
  if verifiedSecrets.isEmpty then []
  else
    let st := verifiedSecrets.foldl (alertStep domain)
      { msgs := [], message := initialHeader domain, count := 0 }
    if 0 < st.count then st.msgs ++ [st.message] else st.msgs

/-- set.add plus the append-only ledger write of _mark_domain_completed
(the ledger append is recorded by the caller in ScanResultRec). -/
def markDomainCompleted (st : ScannerState) (domain : PyStr) : ScannerState :=
  { st with completedDomains :=
      if domain ∈ st.completedDomains then st.completedDomains else domain :: st.completedDomains }

/-- time.sleep(d): the wall clock advances by d. -/
def advanceNow (st : ScannerState) (d : Nat) : ScannerState :=
  { st with now := st.now + d }

/- Observable outcome of one scan_domain call: its return value, whether
the uncaught AttributeError of the verified filter propagated, the final
scanner state, the number of _run_trufflehog invocations, the findings
list, the contents written to the raw and verified per-domain artifacts
(none when the file was not written), the Telegram messages sent, and the
lines appended to the completed ledger. -/
structure ScanResultRec where
  result : Bool
  raised : Bool
  state : ScannerState
  invocations : Nat
  findings : List J
  rawWritten : Option (List J)
  verifiedWritten : Option (List J)
  alerts : List PyStr
  ledgerAppends : List PyStr

/-- The failure return of scan_domain (non-rate-limit error, timeout, or
retry ceiling reached): return False with nothing persisted. -/
def failRec (inv : Nat) (findings : List J) (st : ScannerState) : ScanResultRec :=
  { result := false, raised := false, state := st, invocations := inv, findings := findings,
    rawWritten := none, verifiedWritten := none, alerts := [], ledgerAppends := [] }

/-- stdout lines seen by the success branch (always the .out form: a True
first component of _run_trufflehog's result carries stdout). -/
def linesOf : RunOutput → List (Option J)
  | .out lines => lines
  | .msg _ => []

/-- The success branch of scan_domain: parse stdout lines into findings,
write the raw artifact, run the verified filter (whose AttributeError
propagates), write the verified artifact and send the alert only when the
filtered list is non-empty, mark the domain completed and return True. -/
def scanSuccess (domain : PyStr) (inv : Nat) (findings : List J) (out : RunOutput)
    (st : ScannerState) : ScanResultRec :=
  let findings2 := (parseLoop (linesOf out) findings 0 0).1
  match filterVerifiedLoop findings2 [] with
  | .error _ =>
    { result := false, raised := true, state := st, invocations := inv, findings := findings2,
      rawWritten := some findings2, verifiedWritten := none, alerts := [], ledgerAppends := [] }
  | .ok verified =>
    { result := true, raised := false, state := markDomainCompleted st domain,
      invocations := inv, findings := findings2, rawWritten := some findings2,
      verifiedWritten := if verified.isEmpty then none else some verified,
      alerts := if verified.isEmpty then [] else sendTelegramAlert domain verified,
      ledgerAppends := [domain] }

/-- The while loop of scan_domain. oracle gives the subprocess result of
the k-th _run_trufflehog invocation for this domain; fuel bounds the
number of loop iterations (the Python loop can iterate without consuming
an attempt when no PAT is available, so termination is by fuel; none
means the bound was exhausted, not a behaviour of the code). -/
def scanDomainLoop (domain : PyStr) (oracle : Nat → SubprocResult) :
    Nat → Nat → Nat → List J → ScannerState → Option ScanResultRec
  | 0, _, _, _, _ => none
  | fuel + 1, attempts, inv, findings, st =>
    if attempts < MAX_RETRIES_PER_DOMAIN then
      match getAvailablePat st with
      | (none, st1) =>
        scanDomainLoop domain oracle fuel attempts inv findings (advanceNow st1 PAT_COOLDOWN)
      | (some pat, st1) =>
        match runTrufflehog st1 pat (oracle inv) with
        | ((true, out), st2) => some (scanSuccess domain (inv + 1) findings out st2)
        | ((false, .msg m), st2) =>
          if m = "rate_limit".data then
            scanDomainLoop domain oracle fuel (attempts + 1) (inv + 1) findings (advanceNow st2 2)
          else some (failRec (inv + 1) findings st2)
        | ((false, .out _), st2) => some (failRec (inv + 1) findings st2)
    else
      some (failRec inv findings st)

/-- scan_domain(domain) from a fresh attempt counter. -/
def scanDomain (domain : PyStr) (oracle : Nat → SubprocResult) (fuel : Nat)
    (st : ScannerState) : Option ScanResultRec :=
  scanDomainLoop domain oracle fuel 0 0 [] st

/- Outcome of one pass of run() over the domain list: whether an exception
escaped a scan_domain call (crashing the run), the final state, and one
report per domain actually handed to scan_domain, in order. -/
structure RunRes where
  crashed : Bool
  state : ScannerState
  reports : List (PyStr × ScanResultRec)

/-- The domain loop of run(): skip a domain already in the completed set
before any scan work, otherwise call scan_domain and sleep 5 seconds. An
exception from scan_domain aborts the pass. -/
def runDomains (oracle : PyStr → Nat → SubprocResult) (fuel : Nat) :
    List PyStr → ScannerState → Option RunRes
  | [], st => some { crashed := false, state := st, reports := [] }
  | d :: rest, st =>
    if d ∈ st.completedDomains then runDomains oracle fuel rest st
    else
      match scanDomain d (oracle d) fuel st with
      | none => none
      | some rec =>
        if rec.raised then some { crashed := true, state := rec.state, reports := [(d, rec)] }
        else
          match runDomains oracle fuel rest (advanceNow rec.state 5) with
          | none => none
          | some res =>
            some { crashed := res.crashed, state := res.state, reports := (d, rec) :: res.reports }

/-- _load_pats: a missing PAT.txt raises FileNotFoundError; a file whose
stripped non-blank lines are empty raises ValueError("No PATs found."). -/
def loadPats (file : Option (List PyStr)) : Except PyStr (List PyStr) :=
  match file with
  | none => .error ("FileNotFoundError".data)
  | some lines =>
    let pats := loadLinesNonEmpty lines
    if pats.isEmpty then .error ("No PATs found.".data) else .ok pats

/-- _load_completed_domains: empty set when the ledger file is absent,
otherwise its stripped non-blank lines. -/
def loadCompletedDomains (file : Option (List PyStr)) : List PyStr :=
  match file with
  | none => []
  | some lines => loadLinesNonEmpty lines

/-- GitHubScanner.__init__: load the PATs (which may raise) and the
completed ledger; the cool-down map starts empty and the cursor at 0. -/
def scannerInit (patsFile completedFile : Option (List PyStr)) (now0 : Nat) :
    Except PyStr ScannerState :=
  match loadPats patsFile with
  | .error e => .error e
  | .ok pats =>
    .ok { pats := pats, rateLimitedPats := [], currentPatIndex := 0,
          completedDomains := loadCompletedDomains completedFile, now := now0 }

/-- run(): a missing Domains.txt raises FileNotFoundError before any scan;
otherwise the stripped non-blank domains are scanned in order. -/
def runOnce (st : ScannerState) (domainsFile : Option (List PyStr))
    (oracle : PyStr → Nat → SubprocResult) (fuel : Nat) : Except PyStr (Option RunRes) :=
  match domainsFile with
  | none => .error ("FileNotFoundError".data)
  | some lines => .ok (runDomains oracle fuel (loadLinesNonEmpty lines) st)

/-- The __main__ fatal-error path: construct the scanner and run one pass;
any escaping exception is answered with a best-effort crash notification
(the Bool) and process exit. The report list is empty whenever the run
died before or during startup. -/
def mainModel (patsFile completedFile domainsFile : Option (List PyStr))
    (oracle : PyStr → Nat → SubprocResult) (fuel now0 : Nat) :
    Bool × List (PyStr × ScanResultRec) :=
  match scannerInit patsFile completedFile now0 with
  | .error _ => (true, [])
  | .ok st =>
    match runOnce st domainsFile oracle fuel with
    | .error _ => (true, [])
    | .ok none => (false, [])
    | .ok (some res) => (res.crashed, res.reports)

/- ===================== Helper lemmas ===================== -/

theorem getAvailablePat_pats (st : ScannerState) : (getAvailablePat st).2.pats = st.pats := rfl

theorem getAvailablePat_now (st : ScannerState) : (getAvailablePat st).2.now = st.now := rfl

theorem getAvailablePat_completed (st : ScannerState) :
    (getAvailablePat st).2.completedDomains = st.completedDomains := rfl

theorem runTrufflehog_completed (st : ScannerState) (pat : PyStr) (r : SubprocResult) :
    (runTrufflehog st pat r).2.completedDomains = st.completedDomains := by
  cases r with
  | ok lines => rfl
  | err stderr =>
    simp only [runTrufflehog]
    split
    · rfl
    · rfl
  | timedOut => rfl

theorem markDomainCompleted_mem (st : ScannerState) (d : PyStr) :
    d ∈ (markDomainCompleted st d).completedDomains := by
  simp only [markDomainCompleted]
  split
  · assumption
  · exact List.mem_cons_self _ _

theorem markDomainCompleted_mem_of (st : ScannerState) (dm d : PyStr)
    (h : d ∈ st.completedDomains) : d ∈ (markDomainCompleted st dm).completedDomains := by
  simp only [markDomainCompleted]
  split
  · exact h
  · exact List.mem_cons_of_mem _ h

theorem alookup_aupdate_self (rl : List (PyStr × Nat)) (k : PyStr) (v : Nat) :
    alookup (aupdate rl k v) k = some v := by
  simp [aupdate, alookup]

theorem alookup_aremove_self (rl : List (PyStr × Nat)) (k : PyStr) :
    alookup (aremove rl k) k = none := by
  induction rl with
  | nil => rfl
  | cons hd tl ih =>
    simp only [aremove]
    by_cases hk : hd.1 = k
    · rw [if_pos hk]
      exact ih
    · rw [if_neg hk]
      simp only [alookup, if_neg hk]
      exact ih

theorem alookup_aremove_ne (rl : List (PyStr × Nat)) (k p : PyStr) (hpk : p ≠ k) :
    alookup (aremove rl k) p = alookup rl p := by
  induction rl with
  | nil => rfl
  | cons hd tl ih =>
    simp only [aremove]
    by_cases hk : hd.1 = k
    · rw [if_pos hk]
      have hp : hd.1 ≠ p := fun h => hpk (h ▸ hk)
      simp only [alookup, if_neg hp]
      exact ih
    · rw [if_neg hk]
      simp only [alookup]
      by_cases hp : hd.1 = p
      · rw [if_pos hp, if_pos hp]
      · rw [if_neg hp, if_neg hp]
        exact ih

theorem alookup_aremove_some (rl : List (PyStr × Nat)) (k p : PyStr) (e : Nat)
    (h : alookup (aremove rl k) p = some e) : alookup rl p = some e := by
  by_cases hpk : p = k
  · rw [hpk, alookup_aremove_self] at h
    exact absurd h (by simp)
  · rwa [alookup_aremove_ne rl k p hpk] at h

/- ===================== C2: Scan Invoker frame ===================== -/

def c2state : ScannerState :=
  { pats := ["p".data], rateLimitedPats := [], currentPatIndex := 0,
    completedDomains := [], now := 42 }

/-- C2 counterexample: the claim says a Scan Invoker invocation leaves all
shared orchestrator state unchanged and in particular never modifies the
cool-down map. But _run_trufflehog itself writes the cool-down entry on a
403: invoking it on a state with an empty cool-down map and a stderr
containing "403" leaves a changed map. -/
theorem c2_invoker_state_counterexample :
    (runTrufflehog c2state ("p".data) (.err ("HTTP 403".data))).2.rateLimitedPats ≠
      c2state.rateLimitedPats := by decide

/-- C2 amended: the Scan Invoker leaves the PAT list, rotation cursor,
completed set and clock unchanged on every invocation, and it leaves the
cool-down map unchanged except on the rate-limited classification, where
it itself records the used credential's expiry as now + PAT_COOLDOWN (the
one piece of rate-limit bookkeeping is performed by the invoker, not by
the caller). -/
theorem c2_invoker_frame_amended (st : ScannerState) (pat : PyStr) (r : SubprocResult) :
    ((runTrufflehog st pat r).2.pats = st.pats ∧
     (runTrufflehog st pat r).2.currentPatIndex = st.currentPatIndex ∧
     (runTrufflehog st pat r).2.completedDomains = st.completedDomains ∧
     (runTrufflehog st pat r).2.now = st.now) ∧
    ((runTrufflehog st pat r).2.rateLimitedPats = st.rateLimitedPats ∨
      ((runTrufflehog st pat r).1 = (false, .msg ("rate_limit".data)) ∧
       (runTrufflehog st pat r).2.rateLimitedPats =
         aupdate st.rateLimitedPats pat (st.now + PAT_COOLDOWN))) := by
  cases r with
  | ok lines => exact ⟨⟨rfl, rfl, rfl, rfl⟩, .inl rfl⟩
  | err stderr =>
    simp only [runTrufflehog]
    split
    · exact ⟨⟨rfl, rfl, rfl, rfl⟩, .inr ⟨rfl, rfl⟩⟩
    · exact ⟨⟨rfl, rfl, rfl, rfl⟩, .inl rfl⟩
  | timedOut => exact ⟨⟨rfl, rfl, rfl, rfl⟩, .inl rfl⟩

/- ===================== C4: startup configuration errors ===================== -/

def c4oracle : PyStr → Nat → SubprocResult := fun _ _ => .timedOut

/-- C4 counterexample: the claim says an empty target list file is fatal at
startup. With one usable PAT and a present-but-empty Domains.txt, the
process raises nothing and performs no scan: main completes with no crash
notification (first component false), so the empty target list is not a
fatal configuration error in the code. -/
theorem c4_startup_counterexample :
    mainModel (some [("tok".data)]) none (some []) c4oracle 0 0 = (false, []) := rfl

/-- C4 amended: a missing credential list file, a credential list file with
no non-blank lines, and a missing target list file are each fatal at
startup: an error is raised before any scan, a best-effort crash
notification is attempted, and no scan is performed. An empty (present)
target list, by contrast, is accepted and the pass simply scans nothing. -/
theorem c4_startup_amended :
    (∀ cf df oracle fuel n0, mainModel none cf df oracle fuel n0 = (true, [])) ∧
    (∀ lines cf df oracle fuel n0, loadLinesNonEmpty lines = [] →
      mainModel (some lines) cf df oracle fuel n0 = (true, [])) ∧
    (∀ pf cf oracle fuel n0, mainModel pf cf none oracle fuel n0 = (true, [])) := by
  refine ⟨?_, ?_, ?_⟩
  · intro cf df oracle fuel n0
    rfl
  · intro lines cf df oracle fuel n0 h
    simp [mainModel, scannerInit, loadPats, h]
  · intro pf cf oracle fuel n0
    simp only [mainModel, scannerInit]
    cases hl : loadPats pf with
    | error e => rfl
    | ok pats => rfl

/-- C4 witness: a credential file consisting of no lines is fatal with a
crash notification and an empty report list. -/
theorem c4_startup_amended_witness :
    mainModel (some []) none none c4oracle 0 0 = (true, []) :=
  c4_startup_amended.2.1 [] none none c4oracle 0 0 rfl

/- ===================== C8: malformed-line resilience ===================== -/

/-- The successfully parsed field-mapping records of a raw output, in
original line order (the claim's characterisation of all_findings). -/
def validsOf (lines : List (Option J)) : List J :=
  lines.filterMap (fun l =>
    match l with
    | some (J.obj fields) => some (J.obj fields)
    | _ => none)

/-- C8: the parse loop of scan_domain appends exactly the successfully
parsed field-mapping records to findings, in original line order; every
unparseable line and every line parsing to a non-mapping value is counted
as invalid and skipped, and no malformed line aborts processing of the
remaining lines (the loop is total and later valid lines still appear). -/
theorem c8_malformed_lines (lines : List (Option J)) (findings : List J)
    (valid invalid : Nat) :
    parseLoop lines findings valid invalid =
      (findings ++ validsOf lines, valid + (validsOf lines).length,
        invalid + (lines.length - (validsOf lines).length)) := by
  induction lines generalizing findings valid invalid with
  | nil => simp [parseLoop, validsOf]
  | cons line rest ih =>
    have hle : (validsOf rest).length ≤ rest.length := List.length_filterMap_le _ _
    cases line with
    | some d =>
      cases d with
      | obj fields =>
        have hv : validsOf (some (J.obj fields) :: rest) = J.obj fields :: validsOf rest := rfl
        simp only [parseLoop, hv]
        rw [ih]
        simp only [Prod.mk.injEq, List.length_cons]
        refine ⟨?_, ?_, ?_⟩ <;> first | trivial | simp | omega
      | null =>
        have hv : validsOf (some J.null :: rest) = validsOf rest := rfl
        simp only [parseLoop, hv]
        rw [ih]
        simp only [Prod.mk.injEq, List.length_cons]
        refine ⟨?_, ?_, ?_⟩ <;> first | trivial | simp | omega
      | bool b =>
        have hv : validsOf (some (J.bool b) :: rest) = validsOf rest := rfl
        simp only [parseLoop, hv]
        rw [ih]
        simp only [Prod.mk.injEq, List.length_cons]
        refine ⟨?_, ?_, ?_⟩ <;> first | trivial | simp | omega
      | num n =>
        have hv : validsOf (some (J.num n) :: rest) = validsOf rest := rfl
        simp only [parseLoop, hv]
        rw [ih]
        simp only [Prod.mk.injEq, List.length_cons]
        refine ⟨?_, ?_, ?_⟩ <;> first | trivial | simp | omega
      | str sv =>
        have hv : validsOf (some (J.str sv) :: rest) = validsOf rest := rfl
        simp only [parseLoop, hv]
        rw [ih]
        simp only [Prod.mk.injEq, List.length_cons]
        refine ⟨?_, ?_, ?_⟩ <;> first | trivial | simp | omega
      | arr elems =>
        have hv : validsOf (some (J.arr elems) :: rest) = validsOf rest := rfl
        simp only [parseLoop, hv]
        rw [ih]
        simp only [Prod.mk.injEq, List.length_cons]
        refine ⟨?_, ?_, ?_⟩ <;> first | trivial | simp | omega
    | none =>
      have hv : validsOf (none :: rest) = validsOf rest := rfl
      simp only [parseLoop, hv]
      rw [ih]
      simp only [Prod.mk.injEq, List.length_cons]
      refine ⟨?_, ?_, ?_⟩ <;> first | trivial | simp | omega

/- ===================== Credential pool lemmas ===================== -/

theorem getAvailablePatAux_usable (now : Nat) (pats : List PyStr)
    (rl : List (PyStr × Nat)) (idx fuel : Nat)
    (h : ∀ e, alookup rl (pats.getD idx []) = some e → e ≤ now) :
    getAvailablePatAux now pats rl idx (fuel + 1) =
      (some (pats.getD idx []), aremove rl (pats.getD idx []), (idx + 1) % pats.length) := by
  simp only [getAvailablePatAux]
  cases hl : alookup rl (pats.getD idx []) with
  | none => rfl
  | some e =>
    have he := h e hl
    simp [Nat.not_lt.mpr he]

theorem getAvailablePat_no_cooldown (st : ScannerState)
    (h1 : st.currentPatIndex < st.pats.length)
    (h2 : ∀ p e, alookup st.rateLimitedPats p = some e → e ≤ st.now) :
    getAvailablePat st =
      (some (st.pats.getD st.currentPatIndex []),
       { st with
          rateLimitedPats := aremove st.rateLimitedPats (st.pats.getD st.currentPatIndex []),
          currentPatIndex := (st.currentPatIndex + 1) % st.pats.length }) := by
  obtain ⟨m, hm⟩ : ∃ m, st.pats.length = m + 1 := ⟨st.pats.length - 1, by omega⟩
  have haux := getAvailablePatAux_usable st.now st.pats st.rateLimitedPats st.currentPatIndex m
    (fun e he => h2 _ e he)
  rw [← hm] at haux
  unfold getAvailablePat
  rw [haux]

/-- N consecutive _get_available_pat calls at a fixed clock. -/
def iterCalls : Nat → ScannerState → List (Option PyStr) × ScannerState
  | 0, st => ([], st)
  | k + 1, st =>
    let r := getAvailablePat st
    let rest := iterCalls k r.2
    (r.1 :: rest.1, rest.2)

theorem iterCalls_no_cooldown :
    ∀ (k : Nat) (st : ScannerState),
      st.currentPatIndex < st.pats.length →
      (∀ p e, alookup st.rateLimitedPats p = some e → e ≤ st.now) →
      (iterCalls k st).1 = (List.range k).map
        (fun i => some (st.pats.getD ((i + st.currentPatIndex) % st.pats.length) [])) := by
  intro k
  induction k with
  | zero => intro st h1 h2; simp [iterCalls]
  | succ n ih =>
    intro st h1 h2
    have hpos : 0 < st.pats.length := lt_of_le_of_lt (Nat.zero_le _) h1
    have hcall := getAvailablePat_no_cooldown st h1 h2
    have h1' : ((st.currentPatIndex + 1) % st.pats.length) < st.pats.length :=
      Nat.mod_lt _ hpos
    simp only [iterCalls, hcall]
    have ihx := ih
      { st with
          rateLimitedPats := aremove st.rateLimitedPats (st.pats.getD st.currentPatIndex []),
          currentPatIndex := (st.currentPatIndex + 1) % st.pats.length }
      h1' (fun p e he => h2 p e (alookup_aremove_some _ _ _ _ he))
    rw [ihx, List.range_succ_eq_map]
    simp only [List.map_cons, List.map_map]
    refine congrArg₂ (· :: ·) ?_ ?_
    · rw [Nat.zero_add, Nat.mod_eq_of_lt h1]
    · apply List.map_congr_left
      intro i hi
      simp only [Function.comp_apply]
      rw [Nat.add_comm i, Nat.mod_add_mod]
      have hidx : st.currentPatIndex + 1 + i = Nat.succ i + st.currentPatIndex := by omega
      rw [hidx]

/-- C5: with no credential cooling down, N consecutive next_available calls
return the PAT list rotated to start just past the cursor (i.e. each of
the N credentials exactly once, in rotation order starting at the cursor
position, which sits just after the last-returned index), with no repeat
before all N are served. -/
theorem c5_round_robin (st : ScannerState)
    (h1 : st.currentPatIndex < st.pats.length)
    (h2 : ∀ p e, alookup st.rateLimitedPats p = some e → e ≤ st.now) :
    (iterCalls st.pats.length st).1 = (st.pats.rotate st.currentPatIndex).map some ∧
    (st.pats.Nodup → (iterCalls st.pats.length st).1.Nodup ∧
      ∀ p, p ∈ st.pats → some p ∈ (iterCalls st.pats.length st).1) := by
  have hpos : 0 < st.pats.length := lt_of_le_of_lt (Nat.zero_le _) h1
  have hmain : (iterCalls st.pats.length st).1 =
      (st.pats.rotate st.currentPatIndex).map some := by
    rw [iterCalls_no_cooldown st.pats.length st h1 h2]
    apply List.ext_getElem
    · simp [List.length_rotate]
    · intro i hi1 hi2
      simp only [List.getElem_map, List.getElem_range, List.getElem_rotate]
      congr 1
      exact List.getD_eq_getElem st.pats [] (Nat.mod_lt _ hpos)
  refine ⟨hmain, ?_⟩
  intro hnd
  have hperm := List.rotate_perm st.pats st.currentPatIndex
  have hnd2 : (st.pats.rotate st.currentPatIndex).Nodup := hperm.nodup_iff.mpr hnd
  constructor
  · rw [hmain]
    exact List.Nodup.map (Option.some_injective _) hnd2
  · intro p hp
    rw [hmain]
    exact List.mem_map_of_mem _ (hperm.mem_iff.mpr hp)

def c5state : ScannerState :=
  { pats := ["a".data, "b".data, "c".data], rateLimitedPats := [], currentPatIndex := 1,
    completedDomains := [], now := 0 }

/-- C5 witness: three usable PATs with the cursor at 1 are served as b, c,
a over three consecutive calls. -/
theorem c5_round_robin_witness :
    (iterCalls 3 c5state).1 = (c5state.pats.rotate 1).map some :=
  (c5_round_robin c5state (by decide) (by intro p e h; simp [alookup] at h)).1

/- ===================== C6: cool-down exclusion ===================== -/

theorem getAvailablePatAux_ne_cooling (now : Nat) (pats : List PyStr) (p : PyStr) (e : Nat) :
    ∀ (fuel : Nat) (rl : List (PyStr × Nat)) (idx : Nat),
      alookup rl p = some e → now < e →
      (getAvailablePatAux now pats rl idx fuel).1 ≠ some p := by
  intro fuel
  induction fuel with
  | zero =>
    intro rl idx h1 h2
    simp [getAvailablePatAux]
  | succ n ih =>
    intro rl idx h1 h2
    simp only [getAvailablePatAux]
    split
    next expiry heq =>
      split
      next hlt => exact ih rl _ h1 h2
      next hlt =>
        intro hc
        have hpp := Option.some.inj hc
        rw [hpp] at heq
        have he := Option.some.inj (h1.symm.trans heq)
        omega
    next heq =>
      intro hc
      have hpp := Option.some.inj hc
      rw [hpp] at heq
      exact Option.noConfusion (h1.symm.trans heq)

theorem getAvailablePatAux_all_cooling (now : Nat) (pats : List PyStr) :
    ∀ (fuel : Nat) (rl : List (PyStr × Nat)) (idx : Nat),
      idx < pats.length →
      (∀ p, p ∈ pats → ∃ e, alookup rl p = some e ∧ now < e) →
      (getAvailablePatAux now pats rl idx fuel).1 = none := by
  intro fuel
  induction fuel with
  | zero => intro rl idx h1 h2; rfl
  | succ n ih =>
    intro rl idx h1 h2
    have hpos : 0 < pats.length := lt_of_le_of_lt (Nat.zero_le _) h1
    have hmem : pats.getD idx [] ∈ pats := by
      rw [List.getD_eq_getElem pats [] h1]
      exact List.getElem_mem h1
    obtain ⟨e, he, hlt⟩ := h2 _ hmem
    simp only [getAvailablePatAux, he, if_pos hlt]
    exact ih rl _ (Nat.mod_lt _ hpos) h2

/-- C6: (1) a credential just marked rate-limited by the invoker (403) is
never returned by next_available while the clock is before its cool-down
expiry st.now + PAT_COOLDOWN; (2) when every credential in the pool is
cooling down, next_available returns none after its bounded scan (one
probe per credential) instead of blocking or looping. -/
theorem c6_cooldown_exclusion :
    (∀ (st : ScannerState) (pat stderr : PyStr) (now2 : Nat),
      containsSeq ("403".data) stderr = true →
      now2 < st.now + PAT_COOLDOWN →
      (getAvailablePat
        { (runTrufflehog st pat (.err stderr)).2 with now := now2 }).1 ≠ some pat) ∧
    (∀ st : ScannerState,
      st.currentPatIndex < st.pats.length →
      (∀ p, p ∈ st.pats → ∃ e, alookup st.rateLimitedPats p = some e ∧ st.now < e) →
      (getAvailablePat st).1 = none) := by
  constructor
  · intro st pat stderr now2 h403 hlt
    have hrl : (runTrufflehog st pat (.err stderr)).2.rateLimitedPats =
        aupdate st.rateLimitedPats pat (st.now + PAT_COOLDOWN) := by
      simp [runTrufflehog, h403]
    have hlook : alookup
        ({ (runTrufflehog st pat (.err stderr)).2 with now := now2 } :
          ScannerState).rateLimitedPats pat = some (st.now + PAT_COOLDOWN) := by
      show alookup (runTrufflehog st pat (.err stderr)).2.rateLimitedPats pat = _
      rw [hrl]
      exact alookup_aupdate_self _ _ _
    exact getAvailablePatAux_ne_cooling now2 _ pat (st.now + PAT_COOLDOWN) _ _ _ hlook hlt
  · intro st h1 h2
    exact getAvailablePatAux_all_cooling st.now st.pats st.pats.length
      st.rateLimitedPats st.currentPatIndex h1 h2

def c6state : ScannerState :=
  { pats := ["p".data], rateLimitedPats := [("p".data, 100)], currentPatIndex := 0,
    completedDomains := [], now := 50 }

/-- C6 witness: a one-PAT pool whose only credential cools down until 100
yields none from next_available at time 50. -/
theorem c6_cooldown_exclusion_witness : (getAvailablePat c6state).1 = none := by
  apply c6_cooldown_exclusion.2 c6state (by decide)
  intro p hp
  have hp' : p = "p".data := List.mem_singleton.mp hp
  subst hp'
  exact ⟨100, rfl, by decide⟩

/- ===================== scan_domain loop lemmas ===================== -/

theorem advanceNow_completed (st : ScannerState) (d : Nat) :
    (advanceNow st d).completedDomains = st.completedDomains := rfl

/-- With every invocation classified rate-limited (stderr containing
"403"), the retry loop consumes exactly one attempt per invocation, never
reaches the success or failure exits, and ends at the retry ceiling with
False, no artifacts, no alerts, no ledger write, and an unchanged
completed set. -/
theorem scanDomainLoop_always_rate (domain : PyStr) (oracle : Nat → SubprocResult)
    (stderr : PyStr) (h403 : containsSeq ("403".data) stderr = true)
    (horacle : ∀ k, oracle k = .err stderr) :
    ∀ (fuel attempts inv : Nat) (findings : List J) (st : ScannerState) (rec : ScanResultRec),
      attempts ≤ MAX_RETRIES_PER_DOMAIN →
      scanDomainLoop domain oracle fuel attempts inv findings st = some rec →
      rec.result = false ∧ rec.raised = false ∧
      rec.invocations = inv + (MAX_RETRIES_PER_DOMAIN - attempts) ∧
      rec.rawWritten = none ∧ rec.verifiedWritten = none ∧ rec.alerts = [] ∧
      rec.ledgerAppends = [] ∧ rec.state.completedDomains = st.completedDomains := by
  intro fuel
  induction fuel with
  | zero =>
    intro attempts inv findings st rec hatt h
    exact Option.noConfusion h
  | succ n ih =>
    intro attempts inv findings st rec hatt h
    simp only [scanDomainLoop] at h
    by_cases hlt : attempts < MAX_RETRIES_PER_DOMAIN
    · rw [if_pos hlt] at h
      split at h
      next st1 heq =>
        have h1c : st1.completedDomains = st.completedDomains := by
          rw [← getAvailablePat_completed st, heq]
        have := ih attempts inv findings (advanceNow st1 PAT_COOLDOWN) rec hatt h
        rw [advanceNow_completed, h1c] at this
        exact this
      next pat st1 heq =>
        have h1c : st1.completedDomains = st.completedDomains := by
          rw [← getAvailablePat_completed st, heq]
        have hr : runTrufflehog st1 pat (oracle inv) =
            ((false, RunOutput.msg ("rate_limit".data)),
             { st1 with rateLimitedPats := aupdate st1.rateLimitedPats pat (st1.now + PAT_COOLDOWN) }) := by
          rw [horacle inv]
          simp [runTrufflehog, h403]
        split at h
        next out st2 heq2 =>
          rw [hr] at heq2
          simp at heq2
        next m st2 heq2 =>
          rw [hr] at heq2
          have hm : ("rate_limit".data : PyStr) = m := by
            have := congrArg (fun x => x.1.2) heq2
            simpa using this
          have hst2 : st2.completedDomains = st1.completedDomains := by
            have := congrArg (fun x => x.2.completedDomains) heq2
            simpa using this.symm
          rw [if_pos hm.symm] at h
          have := ih (attempts + 1) (inv + 1) findings (advanceNow st2 2) rec
            (by omega) h
          rw [advanceNow_completed, hst2, h1c] at this
          have hM : MAX_RETRIES_PER_DOMAIN = 3 := rfl
          refine ⟨this.1, this.2.1, ?_, this.2.2.2⟩
          rw [this.2.2.1]
          rw [hM] at hlt ⊢
          omega
        next lines st2 heq2 =>
          rw [hr] at heq2
          simp at heq2
    · rw [if_neg hlt] at h
      have hrec := Option.some.inj h
      have hM : MAX_RETRIES_PER_DOMAIN = 3 := rfl
      rw [← hrec]
      refine ⟨rfl, rfl, ?_, rfl, rfl, rfl, rfl, rfl⟩
      rw [hM] at hlt hatt ⊢
      simp [failRec]
      omega

/-- C7: a target whose every invocation yields the rate-limited
classification is scanned exactly MAX_RETRIES_PER_DOMAIN (3) times; the
loop then returns False without marking the target completed, without
writing any artifact and without further attempts. -/
theorem c7_retry_ceiling (domain : PyStr) (oracle : Nat → SubprocResult) (stderr : PyStr)
    (fuel : Nat) (st : ScannerState) (rec : ScanResultRec)
    (h403 : containsSeq ("403".data) stderr = true)
    (horacle : ∀ k, oracle k = .err stderr)
    (h : scanDomain domain oracle fuel st = some rec) :
    rec.invocations = MAX_RETRIES_PER_DOMAIN ∧ rec.result = false ∧
    rec.state.completedDomains = st.completedDomains ∧ rec.rawWritten = none ∧
    rec.verifiedWritten = none ∧ rec.alerts = [] ∧ rec.ledgerAppends = [] := by
  have hall := scanDomainLoop_always_rate domain oracle stderr h403 horacle fuel 0 0 [] st rec
    (Nat.zero_le _) h
  exact ⟨hall.2.2.1, hall.1, hall.2.2.2.2.2.2.2, hall.2.2.2.1, hall.2.2.2.2.1,
    hall.2.2.2.2.2.1, hall.2.2.2.2.2.2.1⟩

def stateOneTok : ScannerState :=
  { pats := ["p".data], rateLimitedPats := [], currentPatIndex := 0,
    completedDomains := [], now := 0 }

def emptyRec : ScanResultRec :=
  { result := false, raised := false, state := stateOneTok, invocations := 0, findings := [],
    rawWritten := none, verifiedWritten := none, alerts := [], ledgerAppends := [] }

def c7oracle : Nat → SubprocResult := fun _ => .err ("403".data)

/-- C7 witness: a concrete one-PAT scanner whose subprocess always exits
with a 403 terminates within the fuel bound after exactly three
invocations, returning False. -/
theorem c7_retry_ceiling_witness :
    ((scanDomain ("d".data) c7oracle 10 stateOneTok).getD emptyRec).invocations =
      MAX_RETRIES_PER_DOMAIN ∧
    ((scanDomain ("d".data) c7oracle 10 stateOneTok).getD emptyRec).result = false := by
  have h : scanDomain ("d".data) c7oracle 10 stateOneTok =
      some ((scanDomain ("d".data) c7oracle 10 stateOneTok).getD emptyRec) := rfl
  have hall := c7_retry_ceiling ("d".data) c7oracle ("403".data) 10 stateOneTok
    ((scanDomain ("d".data) c7oracle 10 stateOneTok).getD emptyRec)
    (by decide) (fun _ => rfl) h
  exact ⟨hall.1, hall.2.1⟩

/-- Frame of the scan_domain loop: a normal False return (no exception)
persists nothing — no raw artifact, no verified artifact, no alert, no
ledger line — and leaves the completed set untouched; a True return always
writes the raw artifact, marks the domain in the completed set and appends
it to the ledger. -/
theorem scanDomainLoop_frame (domain : PyStr) (oracle : Nat → SubprocResult) :
    ∀ (fuel attempts inv : Nat) (findings : List J) (st : ScannerState) (rec : ScanResultRec),
      scanDomainLoop domain oracle fuel attempts inv findings st = some rec →
      ((rec.raised = false → rec.result = false →
        rec.rawWritten = none ∧ rec.verifiedWritten = none ∧ rec.alerts = [] ∧
        rec.ledgerAppends = [] ∧ rec.state.completedDomains = st.completedDomains) ∧
       (rec.result = true →
        rec.rawWritten = some rec.findings ∧ domain ∈ rec.state.completedDomains ∧
        rec.ledgerAppends = [domain])) := by
  intro fuel
  induction fuel with
  | zero =>
    intro attempts inv findings st rec h
    exact Option.noConfusion h
  | succ n ih =>
    intro attempts inv findings st rec h
    simp only [scanDomainLoop] at h
    by_cases hlt : attempts < MAX_RETRIES_PER_DOMAIN
    · rw [if_pos hlt] at h
      split at h
      next st1 heq =>
        have h1c : st1.completedDomains = st.completedDomains := by
          rw [← getAvailablePat_completed st, heq]
        have := ih attempts inv findings (advanceNow st1 PAT_COOLDOWN) rec h
        rw [advanceNow_completed, h1c] at this
        exact this
      next pat st1 heq =>
        have h1c : st1.completedDomains = st.completedDomains := by
          rw [← getAvailablePat_completed st, heq]
        split at h
        next out st2 heq2 =>
          have h2c : st2.completedDomains = st1.completedDomains := by
            rw [← runTrufflehog_completed st1 pat (oracle inv), heq2]
          have hrec := Option.some.inj h
          subst hrec
          constructor
          · intro hraised hres
            cases hf : filterVerifiedLoop ((parseLoop (linesOf out) findings 0 0).1) [] with
            | error u => simp [scanSuccess, hf] at hraised
            | ok verified => simp [scanSuccess, hf] at hres
          · intro hres
            cases hf : filterVerifiedLoop ((parseLoop (linesOf out) findings 0 0).1) [] with
            | error u => simp [scanSuccess, hf] at hres
            | ok verified =>
              simp only [scanSuccess, hf]
              refine ⟨?_, markDomainCompleted_mem st2 domain, ?_⟩ <;> trivial
        next m st2 heq2 =>
          have h2c : st2.completedDomains = st1.completedDomains := by
            rw [← runTrufflehog_completed st1 pat (oracle inv), heq2]
          split at h
          next hm =>
            have := ih (attempts + 1) (inv + 1) findings (advanceNow st2 2) rec h
            rw [advanceNow_completed, h2c, h1c] at this
            exact this
          next hm =>
            have hrec := Option.some.inj h
            subst hrec
            constructor
            · intro hr2 hres
              exact ⟨rfl, rfl, rfl, rfl, by simp [failRec, h2c, h1c]⟩
            · intro hres
              simp [failRec] at hres
        next lines st2 heq2 =>
          have h2c : st2.completedDomains = st1.completedDomains := by
            rw [← runTrufflehog_completed st1 pat (oracle inv), heq2]
          have hrec := Option.some.inj h
          subst hrec
          constructor
          · intro hr2 hres
            exact ⟨rfl, rfl, rfl, rfl, by simp [failRec, h2c, h1c]⟩
          · intro hres
            simp [failRec] at hres
    · rw [if_neg hlt] at h
      have hrec := Option.some.inj h
      subst hrec
      constructor
      · intro hr2 hres
        exact ⟨rfl, rfl, rfl, rfl, rfl⟩
      · intro hres
        simp [failRec] at hres

/-- The in-memory completed set only grows across a scan_domain call. -/
theorem scanDomainLoop_completed_grow (domain : PyStr) (oracle : Nat → SubprocResult) :
    ∀ (fuel attempts inv : Nat) (findings : List J) (st : ScannerState) (rec : ScanResultRec),
      scanDomainLoop domain oracle fuel attempts inv findings st = some rec →
      ∀ d, d ∈ st.completedDomains → d ∈ rec.state.completedDomains := by
  intro fuel
  induction fuel with
  | zero =>
    intro attempts inv findings st rec h
    exact Option.noConfusion h
  | succ n ih =>
    intro attempts inv findings st rec h d hd
    simp only [scanDomainLoop] at h
    by_cases hlt : attempts < MAX_RETRIES_PER_DOMAIN
    · rw [if_pos hlt] at h
      split at h
      next st1 heq =>
        have h1c : st1.completedDomains = st.completedDomains := by
          rw [← getAvailablePat_completed st, heq]
        refine ih attempts inv findings (advanceNow st1 PAT_COOLDOWN) rec h d ?_
        rw [advanceNow_completed, h1c]
        exact hd
      next pat st1 heq =>
        have h1c : st1.completedDomains = st.completedDomains := by
          rw [← getAvailablePat_completed st, heq]
        split at h
        next out st2 heq2 =>
          have h2c : st2.completedDomains = st1.completedDomains := by
            rw [← runTrufflehog_completed st1 pat (oracle inv), heq2]
          have hrec := Option.some.inj h
          subst hrec
          have hd2 : d ∈ st2.completedDomains := by
            rw [h2c, h1c]
            exact hd
          cases hf : filterVerifiedLoop ((parseLoop (linesOf out) findings 0 0).1) [] with
          | error u => simpa [scanSuccess, hf] using hd2
          | ok verified =>
            simp only [scanSuccess, hf]
            exact markDomainCompleted_mem_of st2 domain d hd2
        next m st2 heq2 =>
          have h2c : st2.completedDomains = st1.completedDomains := by
            rw [← runTrufflehog_completed st1 pat (oracle inv), heq2]
          split at h
          next hm =>
            refine ih (attempts + 1) (inv + 1) findings (advanceNow st2 2) rec h d ?_
            rw [advanceNow_completed, h2c, h1c]
            exact hd
          next hm =>
            have hrec := Option.some.inj h
            subst hrec
            simp only [failRec]
            rw [h2c, h1c]
            exact hd
        next lines st2 heq2 =>
          have h2c : st2.completedDomains = st1.completedDomains := by
            rw [← runTrufflehog_completed st1 pat (oracle inv), heq2]
          have hrec := Option.some.inj h
          subst hrec
          simp only [failRec]
          rw [h2c, h1c]
          exact hd
    · rw [if_neg hlt] at h
      have hrec := Option.some.inj h
      subst hrec
      exact hd

/-- C10: every non-success scan_domain outcome (non-rate-limit failure,
timeout, or retry-ceiling exhaustion — i.e. a normal False return) writes
no raw-results file and no verified-results file, sends no alert, appends
nothing to the completed ledger, and leaves the in-memory completed set
unchanged; results are persisted and the target marked completed only on
the Success (True) path. -/
theorem c10_nonsuccess_frame (domain : PyStr) (oracle : Nat → SubprocResult) (fuel : Nat)
    (st : ScannerState) (rec : ScanResultRec)
    (h : scanDomain domain oracle fuel st = some rec) (hraised : rec.raised = false) :
    (rec.result = false → rec.rawWritten = none ∧ rec.verifiedWritten = none ∧
      rec.alerts = [] ∧ rec.ledgerAppends = [] ∧
      rec.state.completedDomains = st.completedDomains) ∧
    (rec.result = true → rec.rawWritten = some rec.findings ∧
      domain ∈ rec.state.completedDomains ∧ rec.ledgerAppends = [domain]) := by
  have hall := scanDomainLoop_frame domain oracle fuel 0 0 [] st rec h
  exact ⟨fun hres => hall.1 hraised hres, hall.2⟩

def c10oracle : Nat → SubprocResult := fun _ => .err ("boom".data)

/-- C10 witness: a concrete scan whose subprocess fails without a 403
returns False with no artifacts and the completed set unchanged. -/
theorem c10_nonsuccess_frame_witness :
    ((scanDomain ("d".data) c10oracle 5 stateOneTok).getD emptyRec).rawWritten = none ∧
    ((scanDomain ("d".data) c10oracle 5 stateOneTok).getD emptyRec).state.completedDomains =
      stateOneTok.completedDomains := by
  have h : scanDomain ("d".data) c10oracle 5 stateOneTok =
      some ((scanDomain ("d".data) c10oracle 5 stateOneTok).getD emptyRec) := rfl
  have hall := c10_nonsuccess_frame ("d".data) c10oracle 5 stateOneTok
    ((scanDomain ("d".data) c10oracle 5 stateOneTok).getD emptyRec) h rfl
  have hfalse := hall.1 rfl
  exact ⟨hfalse.1, hfalse.2.2.2.2⟩

/- ===================== C9: completed-set gating in run() ===================== -/

/-- Core property of the run() pass: every report (domain actually handed
to scan_domain) concerns a domain that was outside the completed set when
the pass started, and once a domain's scan succeeds no later report in the
pass concerns it again. -/
theorem runDomains_no_completed (oracle : PyStr → Nat → SubprocResult) (fuel : Nat) :
    ∀ (domains : List PyStr) (st : ScannerState) (res : RunRes),
      runDomains oracle fuel domains st = some res →
      ((∀ rep, rep ∈ res.reports → rep.1 ∉ st.completedDomains) ∧
       (∀ (dm : PyStr) (rc : ScanResultRec) (l1 l2 : List (PyStr × ScanResultRec)),
         res.reports = l1 ++ (dm, rc) :: l2 → rc.result = true →
         ∀ rep, rep ∈ l2 → rep.1 ≠ dm)) := by
  intro domains
  induction domains with
  | nil =>
    intro st res h
    have hres := Option.some.inj h
    subst hres
    constructor
    · intro rep hrep
      simp at hrep
    · intro dm rc l1 l2 hsplit
      cases l1 <;> simp at hsplit
  | cons d rest ih =>
    intro st res h
    simp only [runDomains] at h
    by_cases hd : d ∈ st.completedDomains
    · rw [if_pos hd] at h
      exact ih st res h
    · rw [if_neg hd] at h
      split at h
      next heq => exact Option.noConfusion h
      next rec heq =>
        split at h
        next hraised =>
          have hres := Option.some.inj h
          subst hres
          constructor
          · intro rep hrep
            have : rep = (d, rec) := List.mem_singleton.mp hrep
            rw [this]
            exact hd
          · intro dm rc l1 l2 hsplit hres2 rep hrep
            cases l1 with
            | nil =>
              rw [List.nil_append] at hsplit
              injection hsplit with h1s h2s
              rw [← h2s] at hrep
              simp at hrep
            | cons p l1t =>
              rw [List.cons_append] at hsplit
              injection hsplit with h1s h2s
              cases l1t <;> simp at h2s
        next hraised =>
          split at h
          next heq2 => exact Option.noConfusion h
          next res2 heq2 =>
            have hres := Option.some.inj h
            subst hres
            have hgrow := scanDomainLoop_completed_grow d (oracle d) fuel 0 0 [] st rec heq
            have ihres := ih (advanceNow rec.state 5) res2 heq2
            constructor
            · intro rep hrep
              rcases List.mem_cons.mp hrep with hh | ht
              · rw [hh]
                exact hd
              · intro hmem
                exact ihres.1 rep ht (by rw [advanceNow_completed]; exact hgrow rep.1 hmem)
            · intro dm rc l1 l2 hsplit hres2 rep hrep
              cases l1 with
              | nil =>
                simp at hsplit
                obtain ⟨⟨hdm, hrc⟩, hl2⟩ := hsplit
                subst hdm
                rw [← hrc] at hres2
                have hdin : d ∈ rec.state.completedDomains := by
                  have := (scanDomainLoop_frame d (oracle d) fuel 0 0 [] st rec heq).2 hres2
                  exact this.2.1
                intro habs
                rw [← hl2] at hrep
                have := ihres.1 rep hrep
                rw [advanceNow_completed] at this
                rw [habs] at this
                exact this hdin
              | cons p l1t =>
                simp only [List.cons_append, List.cons.injEq] at hsplit
                exact ihres.2 dm rc l1t l2 hsplit.2 hres2 rep hrep

/-- C9: a target in the completed set when the pass starts (in particular
one seeded from the completed ledger by GitHubScanner.__init__, whose
in-memory set is exactly the loaded ledger) is never handed to
scan_domain: no report of the pass concerns it. Moreover a target whose
scan succeeds mid-pass is never scanned again later in the pass. -/
theorem c9_completed_skip (oracle : PyStr → Nat → SubprocResult) (fuel : Nat)
    (domains : List PyStr) (st : ScannerState) (res : RunRes) (d : PyStr)
    (h : runDomains oracle fuel domains st = some res)
    (hd : d ∈ st.completedDomains) :
    (∀ rep, rep ∈ res.reports → rep.1 ≠ d) ∧
    (∀ (dm : PyStr) (rc : ScanResultRec) (l1 l2 : List (PyStr × ScanResultRec)),
      res.reports = l1 ++ (dm, rc) :: l2 → rc.result = true →
      ∀ rep, rep ∈ l2 → rep.1 ≠ dm) ∧
    (∀ (pf cf : Option (List PyStr)) (n0 : Nat) (st0 : ScannerState),
      scannerInit pf cf n0 = .ok st0 → st0.completedDomains = loadCompletedDomains cf) := by
  have hh := runDomains_no_completed oracle fuel domains st res h
  refine ⟨?_, hh.2, ?_⟩
  · intro rep hrep heqd
    exact hh.1 rep hrep (heqd ▸ hd)
  · intro pf cf n0 st0 hinit
    simp only [scannerInit] at hinit
    split at hinit
    next e heq => exact Except.noConfusion hinit
    next pats heq =>
      have := Except.ok.inj hinit
      rw [← this]

def c9oracle : PyStr → Nat → SubprocResult := fun _ _ => .ok []

def c9state : ScannerState :=
  { pats := ["p".data], rateLimitedPats := [], currentPatIndex := 0,
    completedDomains := ["x".data], now := 0 }

def c9dummyRes : RunRes := { crashed := false, state := c9state, reports := [] }

/-- C9 witness: with "x" in the completed set and target list ["x", "y"],
the pass produces a single report and it concerns "y", not "x". -/
theorem c9_completed_skip_witness :
    (((runDomains c9oracle 3 [("x".data), ("y".data)] c9state).getD c9dummyRes).reports.getD 0
      (("x".data), emptyRec)).1 ≠ ("x".data) := by
  have h : runDomains c9oracle 3 [("x".data), ("y".data)] c9state =
      some ((runDomains c9oracle 3 [("x".data), ("y".data)] c9state).getD c9dummyRes) := rfl
  have hh := c9_completed_skip c9oracle 3 [("x".data), ("y".data)] c9state
    ((runDomains c9oracle 3 [("x".data), ("y".data)] c9state).getD c9dummyRes)
    ("x".data) h (by decide)
  apply hh.1
  exact List.mem_singleton.mpr rfl

/- ===================== C1: verified filter and alert blocks ===================== -/

/-- Every entry kept by the verified filter either came in through the
accumulator or has a truthy "Verified" field. -/
theorem filterVerifiedLoop_mem_truthy :
    ∀ (l acc v : List J), filterVerifiedLoop l acc = .ok v →
      ∀ f, f ∈ v → f ∈ acc ∨ pyTruthyOpt (jget f ("Verified".data)) = true := by
  intro l
  induction l with
  | nil =>
    intro acc v h f hf
    have hva := Except.ok.inj h
    subst hva
    exact Or.inl hf
  | cons e rest ih =>
    intro acc v h f hf
    cases e with
    | obj fields =>
      simp only [filterVerifiedLoop] at h
      by_cases ht : pyTruthyOpt (jget (J.obj fields) ("Verified".data)) = true
      · rw [if_pos ht] at h
        split at h
        next u heq => exact Except.noConfusion h
        next ghData heq =>
          split at h <;>
            first
              | exact ih acc v h f hf
              | (rcases ih (acc ++ [J.obj fields]) v h f hf with hin | htr
                 · rcases List.mem_append.mp hin with ha | hb
                   · exact Or.inl ha
                   · right
                     rw [List.mem_singleton.mp hb]
                     exact ht
                 · exact Or.inr htr)
      · rw [if_neg ht] at h
        exact ih acc v h f hf
    | null =>
      simp only [filterVerifiedLoop] at h
      exact ih acc v h f hf
    | bool b =>
      simp only [filterVerifiedLoop] at h
      exact ih acc v h f hf
    | num n =>
      simp only [filterVerifiedLoop] at h
      exact ih acc v h f hf
    | str sv =>
      simp only [filterVerifiedLoop] at h
      exact ih acc v h f hf
    | arr elems =>
      simp only [filterVerifiedLoop] at h
      exact ih acc v h f hf

/-- Whenever scan_domain writes a verified-results artifact, every entry
in it has a truthy "Verified" field. -/
theorem scanDomainLoop_verified_truthy (domain : PyStr) (oracle : Nat → SubprocResult) :
    ∀ (fuel attempts inv : Nat) (findings : List J) (st : ScannerState) (rec : ScanResultRec),
      scanDomainLoop domain oracle fuel attempts inv findings st = some rec →
      ∀ v, rec.verifiedWritten = some v →
      ∀ f, f ∈ v → pyTruthyOpt (jget f ("Verified".data)) = true := by
  intro fuel
  induction fuel with
  | zero =>
    intro attempts inv findings st rec h
    exact Option.noConfusion h
  | succ n ih =>
    intro attempts inv findings st rec h v hv f hfmem
    simp only [scanDomainLoop] at h
    by_cases hlt : attempts < MAX_RETRIES_PER_DOMAIN
    · rw [if_pos hlt] at h
      split at h
      next st1 heq =>
        exact ih attempts inv findings (advanceNow st1 PAT_COOLDOWN) rec h v hv f hfmem
      next pat st1 heq =>
        split at h
        next out st2 heq2 =>
          have hrec := Option.some.inj h
          subst hrec
          cases hfv : filterVerifiedLoop ((parseLoop (linesOf out) findings 0 0).1) [] with
          | error u => simp [scanSuccess, hfv] at hv
          | ok verified =>
            simp only [scanSuccess, hfv] at hv
            split at hv
            next hne => exact Option.noConfusion hv
            next hne =>
              have hvv := Option.some.inj hv
              subst hvv
              rcases filterVerifiedLoop_mem_truthy _ _ _ hfv f hfmem with hin | htr
              · simp at hin
              · exact htr
        next m st2 heq2 =>
          split at h
          next hm =>
            exact ih (attempts + 1) (inv + 1) findings (advanceNow st2 2) rec h v hv f hfmem
          next hm =>
            have hrec := Option.some.inj h
            subst hrec
            simp [failRec] at hv
        next lines st2 heq2 =>
          have hrec := Option.some.inj h
          subst hrec
          simp [failRec] at hv
    · rw [if_neg hlt] at h
      have hrec := Option.some.inj h
      subst hrec
      simp [failRec] at hv

/-- A secret has no usable permalink for the Notifier when its Github
chain raises, yields a non-dict, or yields a falsy (missing or empty)
"link" value — exactly the skip conditions of the alert loop body. -/
def unalertableLink (secret : J) : Bool :=
  match secret with
  | .obj fields =>
    match ghChain (.obj fields) with
    | .error _ => true
    | .ok ghData =>
      match dictGetD ghData ("file".data) (.str ("Unknown file".data)) with
      | .error _ => true
      | .ok _ =>
        match dictGetD ghData ("link".data) (.str []) with
        | .error _ => true
        | .ok commitUrl => !pyTruthy commitUrl
  | _ => true

/-- A secret without a usable permalink contributes nothing to the alert:
the loop body leaves the builder state untouched. -/
theorem alertStep_skip (domain : PyStr) (st : AlertState) (secret : J)
    (h : unalertableLink secret = true) : alertStep domain st secret = st := by
  cases secret with
  | obj fields =>
    cases hg : ghChain (J.obj fields) with
    | error u => simp [alertStep, hg]
    | ok ghData =>
      cases hfile : dictGetD ghData ("file".data) (.str ("Unknown file".data)) with
      | error u => simp [alertStep, hg, hfile]
      | ok filePath =>
        cases hlink : dictGetD ghData ("link".data) (.str []) with
        | error u => simp [alertStep, hg, hfile, hlink]
        | ok commitUrl =>
          have hurl : pyTruthy commitUrl = false := by
            simp only [unalertableLink, hg, hfile, hlink] at h
            simpa using h
          simp [alertStep, hg, hfile, hlink, hurl]
  | null => rfl
  | bool b => rfl
  | num n => rfl
  | str sv => rfl
  | arr elems => rfl

def c1finding : J := .obj [(("Verified".data), .bool true)]

def c1oracle : Nat → SubprocResult := fun _ => .ok [some c1finding]

/-- C1 counterexample: the claim says a finding with a verified flag but a
missing/empty permalink appears in neither the verified-results artifact
nor any alert block. A scan returning the single finding with only a true
"Verified" field (so its permalink is missing: unalertableLink holds)
still writes that finding to the verified-results artifact — the filter in
scan_domain never reads the permalink. -/
theorem c1_verified_artifact_counterexample :
    ((scanDomain ("d".data) c1oracle 2 stateOneTok).getD emptyRec).verifiedWritten =
      some [c1finding] ∧
    unalertableLink c1finding = true := ⟨rfl, rfl⟩

/-- C1 amended: a finding without a truthy verified flag appears in no
verified-results artifact a scan writes (the artifact only ever holds
truthy-Verified entries); and a finding without a usable permalink (chain
raising, non-dict descriptor, or missing/empty link) contributes no block
to any alert message — the builder state is untouched by it. A verified
finding with a missing/empty permalink may however appear in the
verified-results artifact (see the counterexample). -/
theorem c1_verified_filter_amended (domain : PyStr) (oracle : Nat → SubprocResult)
    (fuel : Nat) (st : ScannerState) (rec : ScanResultRec)
    (h : scanDomain domain oracle fuel st = some rec) :
    (∀ v f, rec.verifiedWritten = some v →
      pyTruthyOpt (jget f ("Verified".data)) = false → f ∉ v) ∧
    (∀ (f : J) (ast : AlertState), unalertableLink f = true →
      alertStep domain ast f = ast) := by
  constructor
  · intro v f hv hfalse hmem
    have := scanDomainLoop_verified_truthy domain oracle fuel 0 0 [] st rec h v hv f hmem
    rw [this] at hfalse
    exact Bool.noConfusion hfalse
  · intro f ast hUn
    exact alertStep_skip domain ast f hUn

/-- C1 witness: applied to the concrete scan of the counterexample's
finding, which lacks a permalink chain, the alert builder is untouched. -/
theorem c1_verified_filter_amended_witness :
    alertStep ("d".data) { msgs := [], message := [], count := 0 } c1finding =
      { msgs := [], message := [], count := 0 } := by
  have h : scanDomain ("d".data) c1oracle 2 stateOneTok =
      some ((scanDomain ("d".data) c1oracle 2 stateOneTok).getD emptyRec) := rfl
  exact (c1_verified_filter_amended ("d".data) c1oracle 2 stateOneTok
    ((scanDomain ("d".data) c1oracle 2 stateOneTok).getD emptyRec) h).2 c1finding
    { msgs := [], message := [], count := 0 } (by decide)

/- ===================== C3: alert message batching ===================== -/

def bigName : PyStr := List.replicate 3000 'a'

def c3fields : List (PyStr × J) :=
  [(("DetectorName".data), .str bigName),
   (("SourceMetadata".data), .obj [(("Data".data), .obj [(("Github".data),
     .obj [(("link".data), .str ("u".data))])])])]

def c3secret : J := .obj c3fields

/-- Any message ending in the oversized block exceeds the 3000 ceiling. -/
theorem c3_overflow (x f u : PyStr) :
    3000 < (x ++ secretBlock bigName f u).length := by
  have h3 : bigName.length = 3000 := by
    simp only [bigName, List.length_replicate]
  simp only [secretBlock, List.length_append, List.length_cons, List.length_nil]
  omega

/-- The alert loop body on the oversized secret: the block is appended and
the (now overflowing) message is flushed, the builder restarting from the
continued header. -/
theorem c3_alertStep_big (st : AlertState)
    (hover : 3000 < (st.message ++
      secretBlock bigName ("Unknown file".data) ("u".data)).length) :
    alertStep ("d".data) st c3secret =
      { msgs := st.msgs ++ [st.message ++ secretBlock bigName ("Unknown file".data) ("u".data)],
        message := continuedHeader ("d".data), count := 0 } := by
  have hg : ghChain (J.obj c3fields) = .ok (J.obj [(("link".data), .str ("u".data))]) := rfl
  have hfile : dictGetD (J.obj [(("link".data), .str ("u".data))]) ("file".data)
      (.str ("Unknown file".data)) = .ok (.str ("Unknown file".data)) := rfl
  have hlink : dictGetD (J.obj [(("link".data), .str ("u".data))]) ("link".data)
      (.str []) = .ok (.str ("u".data)) := rfl
  have hname : (jget (J.obj c3fields) ("DetectorName".data)).getD
      (.str ("Unknown Secret".data)) = .str bigName := rfl
  show alertStep ("d".data) st (J.obj c3fields) = _
  simp only [alertStep, hg, hfile, hlink, hname, pyStrOf]
  rw [if_pos (by decide : pyTruthy (J.str ("u".data)) = true), if_pos hover]

/-- Evaluation of the alert call on the single oversized secret: exactly
one message is sent, the initial header with the oversized block inside. -/
theorem c3_eval1 :
    sendTelegramAlert ("d".data) [c3secret] =
      [initialHeader ("d".data) ++ secretBlock bigName ("Unknown file".data) ("u".data)] := by
  have hstep := c3_alertStep_big
    { msgs := [], message := initialHeader ("d".data), count := 0 } (c3_overflow _ _ _)
  simp only [sendTelegramAlert]
  rw [if_neg (by decide : ¬(([c3secret] : List J).isEmpty = true))]
  rw [List.foldl_cons, hstep, List.foldl_nil]
  rw [if_neg (by decide : ¬((0 : Nat) < 0))]
  rfl

/-- C3 counterexample: the claim says the block whose append would exceed
the 3000-character ceiling is held back — the current message is flushed
without it and the block starts the next message (so with a single
verified secret whose block alone overflows, two messages would be sent
and the first would be the short bare header). The code appends first and
flushes the overflowing message with the block inside: exactly one
message is sent, and it exceeds 3000 characters because it contains the
triggering block. -/
theorem c3_batching_counterexample :
    sendTelegramAlert ("d".data) [c3secret] =
      [initialHeader ("d".data) ++ secretBlock bigName ("Unknown file".data) ("u".data)] ∧
    3000 < (initialHeader ("d".data) ++
      secretBlock bigName ("Unknown file".data) ("u".data)).length :=
  ⟨c3_eval1, c3_overflow _ _ _⟩

/-- Invariant of the alert builder: every already-flushed message exceeds
the ceiling, the first flushed message extends the initial header, later
ones extend the continued header, and the message under construction
extends the initial header before any flush and the continued header
after one. -/
def AlertInv (domain : PyStr) (st : AlertState) : Prop :=
  (∀ m, m ∈ st.msgs → 3000 < m.length) ∧
  (∀ m0, st.msgs.head? = some m0 → initialHeader domain <+: m0) ∧
  (∀ m, m ∈ st.msgs.tail → continuedHeader domain <+: m) ∧
  (if st.msgs.isEmpty then initialHeader domain <+: st.message
   else continuedHeader domain <+: st.message)

/-- Appending a block preserves the invariant: on overflow the message is
flushed including the block and the builder restarts from the continued
header; otherwise the block extends the current message. -/
theorem alertInv_append (domain : PyStr) (st : AlertState) (b : PyStr)
    (h : AlertInv domain st) :
    AlertInv domain
      (if 3000 < (st.message ++ b).length then
        { msgs := st.msgs ++ [st.message ++ b], message := continuedHeader domain, count := 0 }
       else { msgs := st.msgs, message := st.message ++ b, count := st.count + 1 }) := by
  obtain ⟨hlen, hhead, htail, hmsg⟩ := h
  split
  next hover =>
    refine ⟨?_, ?_, ?_, ?_⟩
    · intro m hm
      rcases List.mem_append.mp hm with hin | hsing
      · exact hlen m hin
      · rw [List.mem_singleton.mp hsing]
        exact hover
    · intro m0 hm0
      cases hms : st.msgs with
      | nil =>
        rw [hms] at hm0
        simp at hm0
        rw [← hm0]
        rw [hms] at hmsg
        simp at hmsg
        exact hmsg.trans (List.prefix_append _ _)
      | cons m1 ms =>
        rw [hms] at hm0
        simp at hm0
        rw [← hm0]
        exact hhead m1 (by rw [hms]; rfl)
    · intro m hm
      cases hms : st.msgs with
      | nil =>
        rw [hms] at hm
        simp at hm
      | cons m1 ms =>
        rw [hms] at hm
        simp at hm
        rcases hm with hin | heqm
        · exact htail m (by rw [hms]; simpa using hin)
        · rw [heqm]
          rw [hms] at hmsg
          simp at hmsg
          exact hmsg.trans (List.prefix_append _ _)
    · simp [List.prefix_refl]
  next hover =>
    refine ⟨hlen, hhead, htail, ?_⟩
    by_cases he : st.msgs.isEmpty
    · rw [if_pos he] at hmsg ⊢
      exact hmsg.trans (List.prefix_append _ _)
    · rw [if_neg he] at hmsg ⊢
      exact hmsg.trans (List.prefix_append _ _)

/-- One loop iteration of the alert builder preserves the invariant. -/
theorem alertStep_inv (domain : PyStr) (st : AlertState) (secret : J)
    (h : AlertInv domain st) : AlertInv domain (alertStep domain st secret) := by
  cases secret with
  | obj fields =>
    cases hg : ghChain (J.obj fields) with
    | error u => simpa [alertStep, hg] using h
    | ok ghData =>
      cases hfile : dictGetD ghData ("file".data) (.str ("Unknown file".data)) with
      | error u => simpa [alertStep, hg, hfile] using h
      | ok filePath =>
        cases hlink : dictGetD ghData ("link".data) (.str []) with
        | error u => simpa [alertStep, hg, hfile, hlink] using h
        | ok commitUrl =>
          by_cases hurl : pyTruthy commitUrl = true
          · simp only [alertStep, hg, hfile, hlink]
            rw [if_pos hurl]
            exact alertInv_append domain st _ h
          · simp only [alertStep, hg, hfile, hlink]
            rw [if_neg hurl]
            exact h
  | null => exact h
  | bool b => exact h
  | num n => exact h
  | str sv => exact h
  | arr elems => exact h

/-- The whole alert loop preserves the invariant. -/
theorem alertFold_inv (domain : PyStr) :
    ∀ (secrets : List J) (st : AlertState), AlertInv domain st →
      AlertInv domain (secrets.foldl (alertStep domain) st) := by
  intro secrets
  induction secrets with
  | nil => intro st h; exact h
  | cons sec rest ih =>
    intro st h
    rw [List.foldl_cons]
    exact ih _ (alertStep_inv domain st sec h)

/-- C3 amended: when appending a block pushes the message over the
ceiling, that message is flushed immediately WITH the block inside —
hence every sent message except possibly the last exceeds 3000 characters
— and the next message restarts from the continued header with no block
carried over: the first sent message extends the initial header, and
every later sent message extends the continued header (so no block is
moved to the front of a later message). -/
theorem c3_batching_amended (domain : PyStr) (secrets : List J) :
    (∀ m, m ∈ (sendTelegramAlert domain secrets).dropLast → 3000 < m.length) ∧
    (∀ m0, (sendTelegramAlert domain secrets).head? = some m0 →
      initialHeader domain <+: m0) ∧
    (∀ m, m ∈ (sendTelegramAlert domain secrets).tail →
      continuedHeader domain <+: m) := by
  by_cases hempty : secrets.isEmpty
  · refine ⟨?_, ?_, ?_⟩
    · intro m hm
      simp [sendTelegramAlert, hempty] at hm
    · intro m0 hm0
      simp [sendTelegramAlert, hempty] at hm0
    · intro m hm
      simp [sendTelegramAlert, hempty] at hm
  · have hinv0 : AlertInv domain { msgs := [], message := initialHeader domain, count := 0 } := by
      refine ⟨?_, ?_, ?_, ?_⟩
      · intro m hm
        simp at hm
      · intro m0 hm0
        simp at hm0
      · intro m hm
        simp at hm
      · simp [List.prefix_refl]
    have hinv := alertFold_inv domain secrets _ hinv0
    obtain ⟨hlen, hhead, htail, hmsg⟩ := hinv
    have hsend : sendTelegramAlert domain secrets =
        (if 0 < (secrets.foldl (alertStep domain)
            { msgs := [], message := initialHeader domain, count := 0 }).count then
          (secrets.foldl (alertStep domain)
            { msgs := [], message := initialHeader domain, count := 0 }).msgs ++
            [(secrets.foldl (alertStep domain)
              { msgs := [], message := initialHeader domain, count := 0 }).message]
         else (secrets.foldl (alertStep domain)
            { msgs := [], message := initialHeader domain, count := 0 }).msgs) := by
      simp only [sendTelegramAlert, if_neg hempty]
    rw [hsend]
    split
    next hc =>
      refine ⟨?_, ?_, ?_⟩
      · intro m hm
        rw [List.dropLast_concat] at hm
        exact hlen m hm
      · intro m0 hm0
        cases hms : (secrets.foldl (alertStep domain)
            { msgs := [], message := initialHeader domain, count := 0 }).msgs with
        | nil =>
          rw [hms] at hm0
          simp at hm0
          rw [← hm0]
          rw [hms] at hmsg
          simp at hmsg
          exact hmsg
        | cons m1 ms =>
          rw [hms] at hm0
          simp at hm0
          rw [← hm0]
          exact hhead m1 (by rw [hms]; rfl)
      · intro m hm
        cases hms : (secrets.foldl (alertStep domain)
            { msgs := [], message := initialHeader domain, count := 0 }).msgs with
        | nil =>
          rw [hms] at hm
          simp at hm
        | cons m1 ms =>
          rw [hms] at hm
          simp at hm
          rcases hm with hin | heqm
          · exact htail m (by rw [hms]; simpa using hin)
          · rw [heqm]
            rw [hms] at hmsg
            simp at hmsg
            exact hmsg
    next hc =>
      refine ⟨?_, hhead, htail⟩
      intro m hm
      exact hlen m ((List.dropLast_prefix _).subset hm)

def c3smallFields : List (PyStr × J) :=
  [(("DetectorName".data), .str ("n".data)),
   (("SourceMetadata".data), .obj [(("Data".data), .obj [(("Github".data),
     .obj [(("link".data), .str ("v".data))])])])]

def c3smallSecret : J := .obj c3smallFields

/-- The alert loop body on the small secret appends its block without
flushing when the result stays at or below the ceiling. -/
theorem c3_alertStep_small (st : AlertState)
    (hnot : ¬ 3000 < (st.message ++
      secretBlock ("n".data) ("Unknown file".data) ("v".data)).length) :
    alertStep ("d".data) st c3smallSecret =
      { msgs := st.msgs,
        message := st.message ++ secretBlock ("n".data) ("Unknown file".data) ("v".data),
        count := st.count + 1 } := by
  have hg : ghChain (J.obj c3smallFields) = .ok (J.obj [(("link".data), .str ("v".data))]) := rfl
  have hfile : dictGetD (J.obj [(("link".data), .str ("v".data))]) ("file".data)
      (.str ("Unknown file".data)) = .ok (.str ("Unknown file".data)) := rfl
  have hlink : dictGetD (J.obj [(("link".data), .str ("v".data))]) ("link".data)
      (.str []) = .ok (.str ("v".data)) := rfl
  have hname : (jget (J.obj c3smallFields) ("DetectorName".data)).getD
      (.str ("Unknown Secret".data)) = .str ("n".data) := rfl
  show alertStep ("d".data) st (J.obj c3smallFields) = _
  simp only [alertStep, hg, hfile, hlink, hname, pyStrOf]
  rw [if_pos (by decide : pyTruthy (J.str ("v".data)) = true), if_neg hnot]

/-- Evaluation of the alert call on the oversized secret followed by a
small one: two messages, the flushed overflowing one and the residual
continued message. -/
theorem c3_eval2 :
    sendTelegramAlert ("d".data) [c3secret, c3smallSecret] =
      [initialHeader ("d".data) ++ secretBlock bigName ("Unknown file".data) ("u".data),
       continuedHeader ("d".data) ++
         secretBlock ("n".data) ("Unknown file".data) ("v".data)] := by
  have hstep1 := c3_alertStep_big
    { msgs := [], message := initialHeader ("d".data), count := 0 } (c3_overflow _ _ _)
  have hstep2 := c3_alertStep_small
    { msgs := [] ++ [initialHeader ("d".data) ++
        secretBlock bigName ("Unknown file".data) ("u".data)],
      message := continuedHeader ("d".data), count := 0 }
    (by decide)
  simp only [sendTelegramAlert]
  rw [if_neg (by decide : ¬(([c3secret, c3smallSecret] : List J).isEmpty = true))]
  rw [List.foldl_cons, hstep1, List.foldl_cons, hstep2, List.foldl_nil]
  rw [if_pos (by decide : (0 : Nat) < 0 + 1)]
  rfl

/-- C3 witness: with the oversized block followed by a small one, the
first sent message is a flushed-on-overflow message (not the last one)
and, per the amended claim, exceeds 3000 characters — it contains the
block that triggered the flush. -/
theorem c3_batching_amended_witness :
    3000 < ((initialHeader ("d".data) ++
      secretBlock bigName ("Unknown file".data) ("u".data)).length) := by
  apply (c3_batching_amended ("d".data) [c3secret, c3smallSecret]).1
  rw [c3_eval2]
  exact List.mem_singleton.mpr rfl
